import Mathlib

/-!
Shallow embedding of `self_organising_systems/biomakerca/utils.py` and
verification of its specified behaviour.

Python strings are modelled as `List Char`; Python `None`-or-value slots as
`Option`; the filesystem touched by `save_dna`/`load_dna` as an association
list from paths to file contents.  The numpy `.npy` serialization
(`jp.save`/`jp.load` with `allow_pickle=False`) is an external library
primitive and is modelled as an exact store/retrieve pair, per the format's
round-trip contract.  `time.time_ns()` is modelled as an explicit natural
number parameter `t`; `str(t)` is its decimal representation.
-/

namespace BiomakerUtils

/-- A Python string, modelled as its list of characters. -/
abbrev PyStr := List Char

/-- The characters of a Lean string literal, to write concrete Python strings. -/
def strLit (s : String) : PyStr := s.data

/-- Python `s.lower()` (ASCII case folding, which is all the code relies on). -/
def pyLower (s : PyStr) : PyStr := s.map Char.toLower

/-- Python `s.endswith(suffix)`. -/
def pyEndsWith (s suffix : PyStr) : Bool := suffix.isSuffixOf s

/-- Python `sep.join(parts)`. -/
def pyJoin (sep : PyStr) : List PyStr → PyStr
  | [] => []
  | [x] => x
  | x :: y :: t => x ++ sep ++ pyJoin sep (y :: t)

/-- Python `s.replace("\n", ", ")` (the pattern is a single character). -/
def pyReplaceNL : PyStr → PyStr
  | [] => []
  | c :: rest => if c = '\n' then ',' :: ' ' :: pyReplaceNL rest else c :: pyReplaceNL rest

/-- The character of a decimal digit `d < 10`. -/
def digitChar (d : Nat) : Char := Char.ofNat (48 + d)

/-- Accumulator loop for the decimal representation of a natural number.
`fuel` only makes the recursion structural; it never runs out when the loop
starts with `fuel = n` (a number `n` has at most `n + 1` decimal digits). -/
def decimalReprGo (fuel n : Nat) (acc : List Char) : List Char :=
  match fuel with
  | 0 => digitChar n :: acc
  | fuel + 1 =>
    if n < 10 then digitChar n :: acc
    else decimalReprGo fuel (n / 10) (digitChar (n % 10) :: acc)

/-- Python `str(n)` for a non-negative integer `n`. -/
def decimalRepr (n : Nat) : List Char := decimalReprGo n n []

/-! ### `dotdict`

```python
class dotdict(dict):
    __getattr__ = dict.get
    __setattr__ = dict.__setitem__
    __delattr__ = dict.__delitem__
```

A `dict` is modelled extensionally as a partial map from keys to values;
`none` doubles as Python `None`, the default of `dict.get`.  Raising
operations return `Except Unit`. -/

/-- The state of a Python `dict` (hence of a `dotdict`). -/
def Dotdict (V : Type u) : Type u := String → Option V

/-- Python `dict.get(self, k)`: the value at `k`, or the default `None`. -/
def dict_get (d : Dotdict V) (k : String) : Option V := d k

/-- Python `dict.__getitem__` (`d[k]`): raises `KeyError` on a missing key. -/
def dict_getitem (d : Dotdict V) (k : String) : Except Unit V :=
  match d k with
  | some v => .ok v
  | none => .error ()

/-- Python `dict.__setitem__` (`d[k] = v`). -/
def dict_setitem (d : Dotdict V) (k : String) (v : V) : Dotdict V :=
  fun k' => if k' = k then some v else d k'

/-- Python `dict.__delitem__` (`del d[k]`): raises `KeyError` on a missing key. -/
def dict_delitem (d : Dotdict V) (k : String) : Except Unit (Dotdict V) :=
  match d k with
  | some _ => .ok (fun k' => if k' = k then none else d k')
  | none => .error ()

/-- The `dotdict` class assignment `__getattr__ = dict.get`. -/
def dotdict_getattr : Dotdict V → String → Option V := dict_get

/-- The `dotdict` class assignment `__setattr__ = dict.__setitem__`. -/
def dotdict_setattr : Dotdict V → String → V → Dotdict V := dict_setitem

/-- The `dotdict` class assignment `__delattr__ = dict.__delitem__`. -/
def dotdict_delattr : Dotdict V → String → Except Unit (Dotdict V) := dict_delitem

/-! ### `split_2d`

```python
def split_2d(key, w, h):
  return vmap(lambda k: jr.split(k, h))(jr.split(key, w))
```

`jax.random` keys are modelled as natural numbers and `jr.split` as an
arbitrary function `splitFn` subject to the library's guarantee that
`jr.split(k, n)` returns `n` keys.  `vmap f` over the leading axis is `map`. -/

/-- `split_2d`, parametric in the library primitive `jr.split`. -/
def split_2d (splitFn : Nat → Nat → List Nat) (key : Nat) (w h : Nat) : List (List Nat) :=
  (splitFn key w).map (fun k => splitFn k h)

/-! ### `conditional_update`

```python
def conditional_update(arr, idx, val, cond):
  return arr.at[idx].set((1 - cond) * arr[idx] + cond * val)
```

One-dimensional arrays of rationals with a scalar index model the
elementwise semantics; `arr.at[idx].set` is `List.set` (both drop an
out-of-bounds update), and in-bounds `arr[idx]` is `List.getD`. -/

/-- `conditional_update` from the source. -/
def conditional_update (arr : List ℚ) (idx : Nat) (val cond : ℚ) : List ℚ :=
  arr.set idx ((1 - cond) * arr.getD idx 0 + cond * val)

/-! ### `stringify_class`

```python
def stringify_class(instance, exclude_list=[], include_list=None):
  return (
      type(instance).__name__ + ": {" +
      (", ".join(str(item[0])+ ": " + str(item[1]).replace("\n", ", ") for
                  item in vars(instance).items() if
                  not callable(item) and(
                      (not include_list and item[0] not in exclude_list) or
                      (include_list and item[0] in include_list))))
      + "}")
```

A Python value is modelled by whether it is callable together with its
`str()` form; an instance by its runtime type name and `vars(instance)`
in insertion order. -/

/-- A Python attribute value: its `callable()` status and its `str()` form. -/
structure PyVal where
  isCallable : Bool
  str : PyStr

/-- A Python object instance as `stringify_class` sees it: runtime type name
and `vars(instance).items()` in insertion order. -/
structure PyObj where
  typeName : PyStr
  attrs : List (PyStr × PyVal)

/-- Python `callable(item)` where `item` is a `(name, value)` TUPLE taken from
`vars(instance).items()`: a tuple is never callable, so this is constantly
`false`.  The source tests `callable(item)`, not `callable(item[1])`. -/
def pyCallablePair (_item : PyStr × PyVal) : Bool := false

/-- Python truthiness of an optional list (`None` and `[]` are falsy). -/
def pyTruthyList (l : Option (List α)) : Bool :=
  match l with
  | none => false
  | some xs => !xs.isEmpty

/-- Python `x in include_list`; only reached when `include_list` is truthy,
so the `None` case is arbitrary. -/
def inList (l : Option (List PyStr)) (x : PyStr) : Bool :=
  match l with
  | none => false
  | some xs => xs.contains x

/-- The joined generator expression inside `stringify_class`:
`", ".join(str(item[0]) + ": " + str(item[1]).replace("\n", ", ") for item in
vars(instance).items() if not callable(item) and ...)`. -/
def stringify_body (inst : PyObj) (exclude_list : List PyStr)
    (include_list : Option (List PyStr)) : PyStr :=
  pyJoin (strLit ", ")
    ((inst.attrs.filter (fun item =>
        !pyCallablePair item &&
          ((!pyTruthyList include_list && !exclude_list.contains item.1) ||
           (pyTruthyList include_list && inList include_list item.1)))).map
      (fun item => item.1 ++ strLit ": " ++ pyReplaceNL item.2.str))

/-- `stringify_class` from the source. -/
def stringify_class (inst : PyObj) (exclude_list : List PyStr)
    (include_list : Option (List PyStr)) : PyStr :=
  inst.typeName ++ strLit ": \x7b" ++ stringify_body inst exclude_list include_list
    ++ strLit "\x7d"

/-! ### `save_dna` and `load_dna`

The filesystem is an association list from paths to file contents, the most
recent write first.  `jp.save f dna` on an opened path stores the array
exactly; `jp.load` on an `.npy` payload returns it exactly
(`allow_pickle=False` numpy round-trip contract); loading a non-array
payload or a missing path fails. -/

/-- The content of a file on disk: an `.npy` array payload or text. -/
inductive FileData (α : Type u) where
  | npy (dna : α)
  | txt (content : PyStr)
deriving DecidableEq

/-- A filesystem: paths to contents, most recent write first. -/
abbrev Fs (α : Type u) := List (PyStr × FileData α)

/-- Writing a file (an `open(..., "w")` + write, overwriting semantics). -/
def fsWrite (fs : Fs α) (path : PyStr) (d : FileData α) : Fs α := (path, d) :: fs

/-- Reading a file's content, if the path exists. -/
def fsRead (fs : Fs α) (path : PyStr) : Option (FileData α) := fs.lookup path

/-- Python truthiness of an optional integer (`None` and `0` are falsy). -/
def pyTruthyNat (n : Option Nat) : Bool :=
  match n with
  | none => false
  | some v => v != 0

/-- The `lines` list built by `save_dna` for the `.txt` sidecar file.
`config`, `agent_logic` and `mutator` are modelled by their `str()` forms. -/
def save_dna_lines (identifier config agent_logic mutator : PyStr)
    (env_h env_w : Option Nat) (author notes : PyStr) : List PyStr :=
  ([strLit "dna: " ++ identifier, config, agent_logic, mutator]
    ++ (match env_h with
        | some h => if h != 0 then [strLit "env_h: " ++ decimalRepr h] else []
        | none => [])
    ++ (match env_w with
        | some w => if w != 0 then [strLit "env_w: " ++ decimalRepr w] else []
        | none => [])
    ++ [strLit "author: " ++ author]
    ++ [strLit "notes: " ++ notes])

/-- `save_dna` from the source.  `fs` is the filesystem before the call and
`t` the value of `time.time_ns()`.  Returns the `out_file_path` result and
the filesystem after both writes. -/
def save_dna (fs : Fs α) (t : Nat) (dna : α) (configuration_name : PyStr)
    (config agent_logic mutator : PyStr) (env_h env_w : Option Nat)
    (author notes out_dir : PyStr) : PyStr × Fs α :=
  let identifier := pyJoin ['_'] [configuration_name, decimalRepr t]
  let out_file_path := out_dir ++ identifier
  let fs1 := fsWrite fs (out_file_path ++ strLit ".npy") (FileData.npy dna)
  let lines := save_dna_lines identifier config agent_logic mutator env_h env_w author notes
  let fs2 := fsWrite fs1 (out_file_path ++ strLit ".txt")
      (FileData.txt (pyJoin ['\n'] lines))
  (out_file_path, fs2)

/-- The `.npy`-suffix normalization at the top of `load_dna`:
`if not file.lower().endswith(".npy"): file = file + ".npy"`. -/
def normalizeNpy (file : PyStr) : PyStr :=
  if !pyEndsWith (pyLower file) (strLit ".npy") then file ++ strLit ".npy" else file

/-- How `load_dna` can fail. -/
inductive LoadErr where
  | notFound
  | badPayload
deriving DecidableEq

/-- `jp.load(f, allow_pickle=False)` on an opened path: the stored array if
the path holds an `.npy` payload, an error otherwise. -/
def npyRead (fs : Fs α) (path : PyStr) : Except LoadErr α :=
  match fsRead fs path with
  | some (FileData.npy d) => .ok d
  | some (FileData.txt _) => .error .badPayload
  | none => .error .notFound

/-- `load_dna` from the source.  `pkg` is the package's bundled resource
store (`pkg_resources`), `fs` the plain filesystem. -/
def load_dna (pkg fs : Fs α) (file : PyStr) (load_from_this_package : Bool) :
    Except LoadErr α :=
  if load_from_this_package then
    npyRead pkg (pyJoin ['/'] [strLit "biomakerca", strLit "dnalib", normalizeNpy file])
  else
    npyRead fs (normalizeNpy file)

/-! ### Helper lemmas -/

lemma getLast?_cons_or (c : Char) (l : List Char) :
    (c :: l).getLast? = l.getLast?.or (some c) := by
  rw [show c :: l = [c] ++ l from rfl, List.getLast?_append]; rfl

lemma getLast?_decimalReprGo (fuel : Nat) :
    ∀ (n : Nat) (acc : List Char), n < 10 ^ (fuel + 1) →
      ∃ d, d < 10 ∧ (decimalReprGo fuel n acc).getLast? = acc.getLast?.or (some (digitChar d)) := by
  induction fuel with
  | zero =>
    intro n acc hn
    exact ⟨n, by simpa using hn, getLast?_cons_or _ _⟩
  | succ fuel ih =>
    intro n acc hn
    by_cases h : n < 10
    · exact ⟨n, h, by rw [decimalReprGo, if_pos h, getLast?_cons_or]⟩
    · have hrec : n / 10 < 10 ^ (fuel + 1) := by
        rw [Nat.div_lt_iff_lt_mul (by norm_num)]
        calc n < 10 ^ (fuel + 1 + 1) := hn
        _ = 10 ^ (fuel + 1) * 10 := pow_succ 10 (fuel + 1)
      obtain ⟨d, _, hlast⟩ := ih (n / 10) (digitChar (n % 10) :: acc) hrec
      refine ⟨n % 10, Nat.mod_lt _ (by norm_num), ?_⟩
      rw [decimalReprGo, if_neg h, hlast, getLast?_cons_or]
      cases acc.getLast? <;> rfl

lemma getLast?_decimalRepr (n : Nat) :
    ∃ d, d < 10 ∧ (decimalRepr n).getLast? = some (digitChar d) := by
  have hn : n < 10 ^ (n + 1) := by
    calc n < 10 ^ n := Nat.lt_pow_self (by norm_num) n
    _ ≤ 10 ^ (n + 1) := Nat.pow_le_pow_right (by norm_num) (Nat.le_succ n)
  obtain ⟨d, hd, h⟩ := getLast?_decimalReprGo n n [] hn
  exact ⟨d, hd, by simpa using h⟩

lemma digitChar_toLower_ne_y (d : Nat) (hd : d < 10) :
    Char.toLower (digitChar d) = digitChar d ∧ digitChar d ≠ 'y' := by
  unfold digitChar
  interval_cases d <;> exact ⟨by decide, by decide⟩

/-- A path ending in the decimal digits of a timestamp never case-insensitively
ends in the suffix `.npy`. -/
lemma not_endsWith_npy (s : PyStr) (n : Nat) :
    pyEndsWith (pyLower (s ++ decimalRepr n)) (strLit ".npy") = false := by
  by_contra hcon
  rw [Bool.not_eq_false, pyEndsWith, List.isSuffixOf_iff_suffix] at hcon
  obtain ⟨u, hu⟩ := hcon
  obtain ⟨d, hd, hlast⟩ := getLast?_decimalRepr n
  have h1 : (u ++ strLit ".npy").getLast? = some 'y' := by
    rw [List.getLast?_append]; rfl
  have h2 : (pyLower (s ++ decimalRepr n)).getLast? = some (Char.toLower (digitChar d)) := by
    rw [pyLower, List.map_append, List.getLast?_append, List.getLast?_map, hlast]; rfl
  rw [hu, h2, (digitChar_toLower_ne_y d hd).1] at h1
  exact (digitChar_toLower_ne_y d hd).2 (Option.some.inj h1)

lemma endsWith_append_npy (s : PyStr) :
    pyEndsWith (pyLower (s ++ strLit ".npy")) (strLit ".npy") = true := by
  rw [pyEndsWith, pyLower, List.map_append,
    show List.map Char.toLower (strLit ".npy") = strLit ".npy" from by decide]
  exact List.isSuffixOf_iff_suffix.mpr (List.suffix_append _ _)

lemma pyReplaceNL_no_nl (s : PyStr) : '\n' ∉ pyReplaceNL s := by
  induction s with
  | nil => simp [pyReplaceNL]
  | cons c rest ih =>
    rw [pyReplaceNL]
    by_cases hc : c = '\n'
    · rw [if_pos hc]
      intro hmem
      rcases List.mem_cons.mp hmem with h | hmem2
      · exact absurd h (by decide)
      rcases List.mem_cons.mp hmem2 with h | h
      · exact absurd h (by decide)
      · exact ih h
    · rw [if_neg hc]
      intro hmem
      rcases List.mem_cons.mp hmem with h | h
      · exact hc h.symm
      · exact ih h

lemma mem_pyJoin {c : Char} {sep : PyStr} :
    ∀ {l : List PyStr}, c ∈ pyJoin sep l → c ∈ sep ∨ ∃ x ∈ l, c ∈ x := by
  intro l
  induction l with
  | nil => intro h; exact absurd h (List.not_mem_nil c)
  | cons x xs ih =>
    cases xs with
    | nil => intro h; exact Or.inr ⟨x, by simp, h⟩
    | cons y t =>
      intro h
      rcases List.mem_append.mp h with h1 | h1
      · rcases List.mem_append.mp h1 with h2 | h2
        · exact Or.inr ⟨x, by simp, h2⟩
        · exact Or.inl h2
      · rcases ih h1 with h2 | ⟨z, hz, hcz⟩
        · exact Or.inl h2
        · exact Or.inr ⟨z, by simp [hz], hcz⟩

/-- Reading back the `.npy` file written by the two `save_dna` writes. -/
lemma npyRead_save (fs : Fs α) (p : PyStr) (dna : α) (txtc : PyStr) :
    npyRead (fsWrite (fsWrite fs (p ++ strLit ".npy") (FileData.npy dna))
        (p ++ strLit ".txt") (FileData.txt txtc)) (p ++ strLit ".npy")
      = Except.ok dna := by
  have hne : ((p ++ strLit ".npy") == (p ++ strLit ".txt")) = false := by
    refine beq_eq_false_iff_ne.mpr fun hcontra => ?_
    exact absurd (List.append_cancel_left hcontra) (by decide)
  simp [npyRead, fsRead, fsWrite, List.lookup, hne]

/-- A concrete stand-in for `jr.split` used to witness `split_2d_spec`. -/
def splitFn0 (k n : Nat) : List Nat := (List.range n).map (fun i => 1000 * k + i + 1)

/-! ### Claim theorems -/

/-- Claim C1 (code bug evidence): `stringify_class` does NOT exclude
callable-valued attributes.  The source tests `callable(item)` on the
`(name, value)` tuple, which is always `False`, so a bound-method-valued
attribute `m` shows up in the output. -/
theorem stringify_class_keeps_callable :
    stringify_class
        (PyObj.mk (strLit "Foo")
          [(strLit "m", PyVal.mk true (strLit "<bound method Foo.m>"))]) [] none
      = strLit "Foo: \x7bm: <bound method Foo.m>\x7d" := by decide

/-- Claim C2 (counterexample): the first line of the `.txt` sidecar is
`"dna: " + identifier`, not the bare identifier, so the file content differs
from the claimed newline-join of the eight claimed lines. -/
theorem save_dna_txt_first_line_cex :
    fsRead (save_dna ([] : Fs Nat) 123 0 (strLit "test") (strLit "C") (strLit "L")
        (strLit "M") (some 10) (some 20) (strLit "alice") (strLit "hi") (strLit "/tmp/")).2
      (strLit "/tmp/test_123.txt")
      = some (FileData.txt
          (strLit "dna: test_123\nC\nL\nM\nenv_h: 10\nenv_w: 20\nauthor: alice\nnotes: hi")) ∧
    strLit "dna: test_123\nC\nL\nM\nenv_h: 10\nenv_w: 20\nauthor: alice\nnotes: hi"
      ≠ pyJoin ['\n'] [strLit "test_123", strLit "C", strLit "L", strLit "M",
          strLit "env_h: 10", strLit "env_w: 20", strLit "author: alice", strLit "notes: hi"] :=
  ⟨by decide, by decide⟩

/-- Claim C2 (amended): for EVERY call, the `.txt` sidecar holds, one per
line and in this order: `"dna: "` followed by the identifier, `str(config)`,
`str(agent_logic)`, `str(mutator)`, the `env_h:` line if and only if `env_h`
is truthy, the `env_w:` line if and only if `env_w` is truthy, the author
line and the notes line — so `6 + (env_h truthy) + (env_w truthy)` lines in
general, and 8 lines exactly when both `env_h` and `env_w` are provided and
truthy. -/
theorem save_dna_txt_file (fs : Fs α) (t : Nat) (dna : α)
    (configuration_name config agent_logic mutator : PyStr)
    (env_h env_w : Option Nat) (author notes out_dir : PyStr) :
    save_dna_lines (pyJoin ['_'] [configuration_name, decimalRepr t]) config
        agent_logic mutator env_h env_w author notes
      = [strLit "dna: " ++ pyJoin ['_'] [configuration_name, decimalRepr t],
         config, agent_logic, mutator]
        ++ (if pyTruthyNat env_h then [strLit "env_h: " ++ decimalRepr (env_h.getD 0)] else [])
        ++ (if pyTruthyNat env_w then [strLit "env_w: " ++ decimalRepr (env_w.getD 0)] else [])
        ++ [strLit "author: " ++ author, strLit "notes: " ++ notes] ∧
    (save_dna_lines (pyJoin ['_'] [configuration_name, decimalRepr t]) config
        agent_logic mutator env_h env_w author notes).length
      = 6 + (if pyTruthyNat env_h then 1 else 0) + (if pyTruthyNat env_w then 1 else 0) ∧
    (pyTruthyNat env_h = true → pyTruthyNat env_w = true →
      (save_dna_lines (pyJoin ['_'] [configuration_name, decimalRepr t]) config
        agent_logic mutator env_h env_w author notes).length = 8) ∧
    fsRead (save_dna fs t dna configuration_name config agent_logic mutator
        env_h env_w author notes out_dir).2
      ((save_dna fs t dna configuration_name config agent_logic mutator
        env_h env_w author notes out_dir).1 ++ strLit ".txt")
      = some (FileData.txt (pyJoin ['\n']
          (save_dna_lines (pyJoin ['_'] [configuration_name, decimalRepr t]) config
            agent_logic mutator env_h env_w author notes))) := by
  have hA : save_dna_lines (pyJoin ['_'] [configuration_name, decimalRepr t]) config
      agent_logic mutator env_h env_w author notes
      = [strLit "dna: " ++ pyJoin ['_'] [configuration_name, decimalRepr t],
         config, agent_logic, mutator]
        ++ (if pyTruthyNat env_h then [strLit "env_h: " ++ decimalRepr (env_h.getD 0)] else [])
        ++ (if pyTruthyNat env_w then [strLit "env_w: " ++ decimalRepr (env_w.getD 0)] else [])
        ++ [strLit "author: " ++ author, strLit "notes: " ++ notes] := by
    rcases env_h with _ | eh <;> rcases env_w with _ | ew <;>
      simp [save_dna_lines, pyTruthyNat]
  have hB : (save_dna_lines (pyJoin ['_'] [configuration_name, decimalRepr t]) config
      agent_logic mutator env_h env_w author notes).length
      = 6 + (if pyTruthyNat env_h then 1 else 0) + (if pyTruthyNat env_w then 1 else 0) := by
    rw [hA]
    by_cases h1 : pyTruthyNat env_h = true <;> by_cases h2 : pyTruthyNat env_w = true <;>
      simp [h1, h2]
  refine ⟨hA, hB, fun h1 h2 => by rw [hB, h1, h2]; rfl, ?_⟩
  simp [save_dna, fsRead, fsWrite, List.lookup]

/-- Claim C2 (witness): a save with truthy `env_h`/`env_w` yields exactly 8
sidecar lines; a save with `env_h = None` and `env_w = 0` (both falsy) omits
both env lines, yielding 6. -/
theorem save_dna_txt_file_witness :
    (save_dna_lines (pyJoin ['_'] [strLit "test", decimalRepr 123]) (strLit "C")
      (strLit "L") (strLit "M") (some 10) (some 20) (strLit "alice")
      (strLit "hi")).length = 8 ∧
    (save_dna_lines (pyJoin ['_'] [strLit "test", decimalRepr 123]) (strLit "C")
      (strLit "L") (strLit "M") none (some 0) (strLit "alice")
      (strLit "hi")).length
      = 6 + (if pyTruthyNat none then 1 else 0) + (if pyTruthyNat (some 0) then 1 else 0) :=
  ⟨(save_dna_txt_file ([] : Fs Nat) 123 0 (strLit "test") (strLit "C") (strLit "L")
      (strLit "M") (some 10) (some 20) (strLit "alice") (strLit "hi")
      (strLit "/tmp/")).2.2.1 (by decide) (by decide),
    (save_dna_txt_file ([] : Fs Nat) 123 0 (strLit "test") (strLit "C") (strLit "L")
      (strLit "M") none (some 0) (strLit "alice") (strLit "hi")
      (strLit "/tmp/")).2.1⟩

/-- Claim C3: on a `dotdict`, attribute read of a never-set key returns the
missing-key default `None` while item read raises `KeyError`; attribute
set/delete are the very same operations as item set/delete, and a value
written one way reads back identically the other way. -/
theorem dotdict_access_spec (V : Type u) (d : Dotdict V) (k : String) (v : V) :
    (d k = none → dotdict_getattr d k = none ∧ dict_getitem d k = Except.error ()) ∧
    dict_getitem (dotdict_setattr d k v) k = Except.ok v ∧
    dotdict_getattr (dict_setitem d k v) k = some v ∧
    dotdict_setattr d k v = dict_setitem d k v ∧
    dotdict_delattr d k = dict_delitem d k := by
  refine ⟨fun h => ⟨h, ?_⟩, ?_, ?_, rfl, rfl⟩
  · simp [dict_getitem, h]
  · simp [dict_getitem, dotdict_setattr, dict_setitem]
  · simp [dotdict_getattr, dict_get, dict_setitem]

/-- Claim C3 (witness): the empty `dotdict` with key `"a"` and value `1`. -/
theorem dotdict_access_witness :
    dotdict_getattr (fun _ => (none : Option Nat)) "a" = none ∧
    dict_getitem (fun _ => (none : Option Nat)) "a" = Except.error () ∧
    dict_getitem (dotdict_setattr (fun _ => (none : Option Nat)) "a" 1) "a" = Except.ok 1 ∧
    dotdict_getattr (dict_setitem (fun _ => (none : Option Nat)) "a" 1) "a" = some 1 := by
  have h := dotdict_access_spec Nat (fun _ => none) "a" 1
  exact ⟨(h.1 rfl).1, (h.1 rfl).2, h.2.1, h.2.2.1⟩

/-- Claim C4: `conditional_update` leaves every position other than `idx`
unchanged, writes the interpolation `(1 - cond) * arr[idx] + cond * val` at
`idx` — hence `val` when `cond = 1` and the original array when `cond = 0` —
and returns a same-length array (the input is untouched: the embedding is
pure, as is the jax `.at[].set` functional update). -/
theorem conditional_update_spec (arr : List ℚ) (idx : Nat) (val cond : ℚ) :
    (∀ j, j ≠ idx → (conditional_update arr idx val cond).getD j 0 = arr.getD j 0) ∧
    (idx < arr.length → (conditional_update arr idx val cond).getD idx 0
        = (1 - cond) * arr.getD idx 0 + cond * val) ∧
    (cond = 1 → idx < arr.length → (conditional_update arr idx val cond).getD idx 0 = val) ∧
    (cond = 0 → conditional_update arr idx val cond = arr) ∧
    (conditional_update arr idx val cond).length = arr.length := by
  refine ⟨?_, ?_, ?_, ?_, by rw [conditional_update]; exact List.length_set arr idx _⟩
  · intro j hj
    simp [conditional_update, List.getD_eq_getElem?_getD, List.getElem?_set_ne (Ne.symm hj)]
  · intro hlt
    rw [conditional_update, List.getD_eq_getElem?_getD, List.getElem?_set_eq hlt]
    rfl
  · intro hc hlt
    subst hc
    rw [conditional_update, List.getD_eq_getElem?_getD, List.getElem?_set_eq hlt]
    show (1 - 1) * arr.getD idx 0 + 1 * val = val
    ring
  · intro hc
    subst hc
    rw [conditional_update]
    have hval : (1 - 0 : ℚ) * arr.getD idx 0 + 0 * val = arr.getD idx 0 := by ring
    rw [hval]
    apply List.ext_getElem?
    intro n
    rw [List.getElem?_set]
    by_cases hn : idx = n
    · subst hn
      by_cases hlt : idx < arr.length
      · simp [hlt, List.getD_eq_getElem?_getD, List.getElem?_eq_getElem hlt]
      · simp [hlt, List.getElem?_eq_none (Nat.le_of_not_lt hlt)]
    · simp [hn]

/-- Claim C4 (witness): `arr = [1,2,3]`, `idx = 1`, `val = 5`. -/
theorem conditional_update_witness :
    (conditional_update [1, 2, 3] 1 5 1).getD 0 0 = (1 : ℚ) ∧
    (conditional_update [1, 2, 3] 1 5 1).getD 1 0 = (5 : ℚ) ∧
    conditional_update [1, 2, 3] 1 5 0 = [1, 2, 3] :=
  ⟨(conditional_update_spec [1, 2, 3] 1 5 1).1 0 (by decide),
    (conditional_update_spec [1, 2, 3] 1 5 1).2.2.1 rfl (by decide),
    (conditional_update_spec [1, 2, 3] 1 5 0).2.2.2.1 rfl⟩

/-- Claim C5: saving a dna and loading it back from the returned path (the
loader appends `.npy` and reads the filesystem) returns the very array that
was saved, for any dna value, any metadata, and any prior filesystem. -/
theorem save_load_roundtrip (pkg fs : Fs α) (t : Nat) (dna : α)
    (configuration_name config agent_logic mutator : PyStr)
    (env_h env_w : Option Nat) (author notes out_dir : PyStr) :
    load_dna pkg
      (save_dna fs t dna configuration_name config agent_logic mutator
        env_h env_w author notes out_dir).2
      (save_dna fs t dna configuration_name config agent_logic mutator
        env_h env_w author notes out_dir).1
      false
      = Except.ok dna := by
  have h1 : (save_dna fs t dna configuration_name config agent_logic mutator
      env_h env_w author notes out_dir).1
      = out_dir ++ pyJoin ['_'] [configuration_name, decimalRepr t] := rfl
  have hne : pyEndsWith
      (pyLower (out_dir ++ pyJoin ['_'] [configuration_name, decimalRepr t]))
      (strLit ".npy") = false := by
    have h := not_endsWith_npy (out_dir ++ (configuration_name ++ ['_'])) t
    simpa [pyJoin, List.append_assoc] using h
  show npyRead
      (save_dna fs t dna configuration_name config agent_logic mutator
        env_h env_w author notes out_dir).2
      (normalizeNpy (save_dna fs t dna configuration_name config agent_logic mutator
        env_h env_w author notes out_dir).1)
      = Except.ok dna
  rw [h1, normalizeNpy, hne]
  have h2 : (save_dna fs t dna configuration_name config agent_logic mutator
      env_h env_w author notes out_dir).2
      = fsWrite (fsWrite fs
          ((out_dir ++ pyJoin ['_'] [configuration_name, decimalRepr t]) ++ strLit ".npy")
          (FileData.npy dna))
        ((out_dir ++ pyJoin ['_'] [configuration_name, decimalRepr t]) ++ strLit ".txt")
        (FileData.txt (pyJoin ['\n']
          (save_dna_lines (pyJoin ['_'] [configuration_name, decimalRepr t]) config
            agent_logic mutator env_h env_w author notes))) := rfl
  rw [h2]
  simpa using npyRead_save fs
    (out_dir ++ pyJoin ['_'] [configuration_name, decimalRepr t]) dna
    (pyJoin ['\n'] (save_dna_lines (pyJoin ['_'] [configuration_name, decimalRepr t])
      config agent_logic mutator env_h env_w author notes))

/-- Claim C6: the identifier is `configuration_name`, an underscore, and the
decimal nanosecond timestamp; the returned path is `out_dir` concatenated
directly with the identifier, with no separator and no extension. -/
theorem save_dna_path (fs : Fs α) (t : Nat) (dna : α)
    (configuration_name config agent_logic mutator : PyStr)
    (env_h env_w : Option Nat) (author notes out_dir : PyStr) :
    (save_dna fs t dna configuration_name config agent_logic mutator
        env_h env_w author notes out_dir).1
      = out_dir ++ pyJoin ['_'] [configuration_name, decimalRepr t] ∧
    (save_dna fs t dna configuration_name config agent_logic mutator
        env_h env_w author notes out_dir).1
      = out_dir ++ (configuration_name ++ ['_'] ++ decimalRepr t) :=
  ⟨rfl, rfl⟩

/-- Claim C7: `load_dna`'s reference normalization appends `.npy` exactly
when the reference does not already end in `.npy` case-insensitively, leaves
it unchanged otherwise, and is idempotent. -/
theorem normalizeNpy_spec (file : PyStr) :
    (pyEndsWith (pyLower file) (strLit ".npy") = false →
      normalizeNpy file = file ++ strLit ".npy") ∧
    (pyEndsWith (pyLower file) (strLit ".npy") = true → normalizeNpy file = file) ∧
    normalizeNpy (normalizeNpy file) = normalizeNpy file := by
  refine ⟨fun h => by rw [normalizeNpy, h]; rfl, fun h => by rw [normalizeNpy, h]; rfl, ?_⟩
  by_cases h : pyEndsWith (pyLower file) (strLit ".npy")
  · have hfix : normalizeNpy file = file := by rw [normalizeNpy, h]; rfl
    rw [hfix]
    exact hfix
  · have happ : normalizeNpy file = file ++ strLit ".npy" := by
      rw [normalizeNpy, eq_false_of_ne_true h]; rfl
    rw [happ, normalizeNpy, endsWith_append_npy]
    rfl

/-- Claim C7 (witness): `"foo"` gains the suffix, `"bar.NPY"` is unchanged,
and normalizing twice equals normalizing once. -/
theorem normalizeNpy_witness :
    normalizeNpy (strLit "foo") = strLit "foo" ++ strLit ".npy" ∧
    normalizeNpy (strLit "bar.NPY") = strLit "bar.NPY" ∧
    normalizeNpy (normalizeNpy (strLit "foo")) = normalizeNpy (strLit "foo") :=
  ⟨(normalizeNpy_spec (strLit "foo")).1 (by decide),
    (normalizeNpy_spec (strLit "bar.NPY")).2.1 (by decide),
    (normalizeNpy_spec (strLit "foo")).2.2⟩

/-- Claim C8 (counterexample): an instance whose runtime type name contains a
newline (constructible in Python via the three-argument `type`) has
newline-free attribute names, yet the `stringify_class` output contains a raw
newline. -/
theorem stringify_class_newline_cex :
    (∀ p ∈ (PyObj.mk (strLit "A\nB") []).attrs, '\n' ∉ p.1) ∧
    '\n' ∈ stringify_class (PyObj.mk (strLit "A\nB") []) [] none := by
  refine ⟨fun p hp => absurd hp (List.not_mem_nil p), ?_⟩
  decide

/-- Claim C8 (amended): for every instance whose attribute names AND runtime
type name contain no newline, the `stringify_class` output starts with the
type name followed by `": {"`, ends with `"}"`, and contains no raw newline
(every value's `str()` has its newlines replaced by `", "`). -/
theorem stringify_class_shape (inst : PyObj) (exclude_list : List PyStr)
    (include_list : Option (List PyStr))
    (hattrs : ∀ p ∈ inst.attrs, '\n' ∉ p.1) (hty : '\n' ∉ inst.typeName) :
    (∃ rest, stringify_class inst exclude_list include_list
        = (inst.typeName ++ strLit ": \x7b") ++ rest) ∧
    (∃ front, stringify_class inst exclude_list include_list
        = front ++ strLit "\x7d") ∧
    '\n' ∉ stringify_class inst exclude_list include_list := by
  have hform : stringify_class inst exclude_list include_list
      = (inst.typeName ++ strLit ": \x7b")
        ++ (stringify_body inst exclude_list include_list ++ strLit "\x7d") := by
    rw [stringify_class]
    simp [List.append_assoc]
  refine ⟨⟨stringify_body inst exclude_list include_list ++ strLit "\x7d", hform⟩,
    ⟨_, rfl⟩, ?_⟩
  intro hmem
  rw [stringify_class] at hmem
  rcases List.mem_append.mp hmem with h | h
  · rcases List.mem_append.mp h with h1 | h1
    · rcases List.mem_append.mp h1 with h2 | h2
      · exact hty h2
      · exact absurd h2 (by decide)
    · rw [stringify_body] at h1
      rcases mem_pyJoin h1 with hsep | ⟨x, hx, hcx⟩
      · exact absurd hsep (by decide)
      · rcases List.mem_map.mp hx with ⟨item, hitem, rfl⟩
        rcases List.mem_append.mp hcx with h3 | h3
        · rcases List.mem_append.mp h3 with h4 | h4
          · exact hattrs item (List.mem_filter.mp hitem).1 h4
          · exact absurd h4 (by decide)
        · exact pyReplaceNL_no_nl _ h3
  · exact absurd h (by decide)

/-- Claim C8 (witness): a concrete instance with a newline inside an
attribute VALUE still yields a single-line, well-delimited output. -/
theorem stringify_class_shape_witness :
    (∃ rest, stringify_class
        (PyObj.mk (strLit "Foo") [(strLit "a", PyVal.mk false (strLit "x\ny"))]) [] none
        = ((PyObj.mk (strLit "Foo")
            [(strLit "a", PyVal.mk false (strLit "x\ny"))]).typeName ++ strLit ": \x7b") ++ rest) ∧
    '\n' ∉ stringify_class
        (PyObj.mk (strLit "Foo") [(strLit "a", PyVal.mk false (strLit "x\ny"))]) [] none := by
  have h := stringify_class_shape
    (PyObj.mk (strLit "Foo") [(strLit "a", PyVal.mk false (strLit "x\ny"))]) [] none
    (by decide) (by decide)
  exact ⟨h.1, h.2.2⟩

/-- Claim C9: `split_2d` is pure and deterministic, returns a `w × h` grid —
`w` rows of `h` keys each, `w * h` keys in total — and row `i` is the split
into `h` sub-keys of the `i`-th of the `w` sub-keys of the root key.
`hlen` is the underlying generator's guarantee that `jr.split(k, n)` returns
`n` keys. -/
theorem split_2d_spec (splitFn : Nat → Nat → List Nat)
    (hlen : ∀ k n, (splitFn k n).length = n) (key w h : Nat) :
    (split_2d splitFn key w h).length = w ∧
    (∀ row ∈ split_2d splitFn key w h, row.length = h) ∧
    (split_2d splitFn key w h).flatten.length = w * h ∧
    (∀ i : Nat, (split_2d splitFn key w h)[i]?
        = Option.map (fun k => splitFn k h) (splitFn key w)[i]?) ∧
    (∀ key2 w2 h2, key = key2 → w = w2 → h = h2 →
      split_2d splitFn key w h = split_2d splitFn key2 w2 h2) := by
  refine ⟨by rw [split_2d, List.length_map, hlen], ?_, ?_, ?_, ?_⟩
  · intro row hrow
    rw [split_2d, List.mem_map] at hrow
    obtain ⟨k, _, rfl⟩ := hrow
    exact hlen k h
  · rw [split_2d, List.length_flatten, List.map_map]
    have hconst : List.map (List.length ∘ fun k => splitFn k h) (splitFn key w)
        = List.map (Function.const Nat h) (splitFn key w) :=
      List.map_congr_left (fun a _ => hlen a h)
    rw [hconst, List.map_const, List.sum_replicate, hlen, smul_eq_mul]
  · intro i
    rw [split_2d, List.getElem?_map]
  · rintro key2 w2 h2 rfl rfl rfl
    rfl

/-- Claim C9 (witness): a concrete splitting function on a 2 × 3 grid. -/
theorem split_2d_spec_witness :
    (split_2d splitFn0 7 2 3).length = 2 ∧
    (split_2d splitFn0 7 2 3).flatten.length = 2 * 3 := by
  have hl : ∀ k n, (splitFn0 k n).length = n := by
    intro k n
    rw [splitFn0, List.length_map, List.length_range]
  exact ⟨(split_2d_spec splitFn0 hl 7 2 3).1, (split_2d_spec splitFn0 hl 7 2 3).2.2.1⟩

/-- Claim C10: `stringify_class` with an empty inclusion list behaves exactly
like the default `include_list=None` — the empty list is falsy in Python, so
the `not include_list` branch applies and all non-excluded attributes are
kept. -/
theorem stringify_class_empty_include (inst : PyObj) (exclude_list : List PyStr) :
    stringify_class inst exclude_list (some []) = stringify_class inst exclude_list none := rfl

end BiomakerUtils
